import Mathlib

/-!
Shallow embedding of the CopyrightGuard retrieval-and-assessment core.

The repository ships two variants of the assessment pipeline:
* the current one: `src/App.tsx` (`startAssessment`) together with
  `src/services/geminiService.ts` (`generateImageIndex`,
  `calculateCosineSimilarity`, `analyzeImageRisk`) and
  `src/services/imageUtils.ts` (`calculateHammingDistance`);
* a legacy one: `src/unnamed/part_000` (`startAssessment`, batched) together
  with the second copy of `geminiService.ts` appended in the same file
  (`analyzeImageRisk`, suffixed `V2` here).

External effects (HTTP fetches of image bytes, the chat/embedding/verification
oracles) are modelled as explicit environment values: every call site that can
fail or return data from outside is parameterised by an outcome drawn from the
environment.  JavaScript numbers are modelled as `Int` where the code only
ever stores and compares integral scores, and as `ℝ` for the embedding /
similarity arithmetic.  JavaScript `Array.prototype.sort` with a consistent
comparator is modelled as a stable insertion sort (`jsStableSort`) over the
total preorder `le a b ↔ compare a b ≤ 0`.
-/

/-! ## Data model (src/types.ts) -/

/-- `UploadedImage` from `src/types.ts`.  `url` and `uploadedAt` are carried
for completeness; the byte contents behind `url` are consumed only by the
abstracted external calls.  `embedding` is the field populated dynamically by
the background indexer in `App.tsx` (absent from the `types.ts` interface but
read and written by the code). -/
structure UploadedImage where
  id : String
  url : String
  name : String
  uploadedAt : Int
  hash : Option String := none
  embedding : Option (List ℝ) := none
  deriving Inhabited

/-- `RiskScores` from `src/types.ts`; the `structure` field keeps the source
name via guillemets since `structure` is a Lean keyword. -/
structure RiskScores where
  semantic : Int
  «structure» : Int
  compliance : Int
  total : Int
  deriving Repr, DecidableEq, Inhabited

/-- Evidence lists of an `AssessmentResult` (src/types.ts). -/
structure Evidence where
  similarities : List String
  differences : List String
  deriving Repr, DecidableEq, Inhabited

/-- One entry of the per-dimension breakdown (src/types.ts). -/
structure BreakdownItem where
  score : Int
  comment : String
  deriving Repr, DecidableEq, Inhabited

/-- The structured breakdown of an `AssessmentResult` (src/types.ts). -/
structure Breakdown where
  style : BreakdownItem
  composition : BreakdownItem
  elements : BreakdownItem
  font : BreakdownItem
  deriving Repr, DecidableEq, Inhabited

/-- `AssessmentResult` from `src/types.ts`.  `vectorSimilarity` is the field
injected dynamically by `App.tsx` (`result.vectorSimilarity = candidate.similarity`). -/
structure AssessmentResult where
  referenceImageId : String
  isMatch : Bool
  scores : RiskScores
  analysisText : String
  evidence : Evidence
  breakdown : Breakdown
  modificationSuggestion : Option String
  pHashMatch : Bool
  vectorSimilarity : Option ℝ := none
  deriving Inhabited

/-- Progress step labels of `AnalysisStatus.step`; `App.tsx` uses the full
five-step union, `part_000` only `idle`/`analyzing`/`complete`. -/
inductive Step where
  | idle
  | indexing
  | retrieving
  | analyzing
  | complete
  deriving Repr, DecidableEq, Inhabited

/-- `AnalysisStatus` from `src/types.ts`. -/
structure AnalysisStatus where
  step : Step
  progress : Int
  currentFile : Option String := none
  deriving Repr, DecidableEq, Inhabited

/-! ## Distance metrics (src/services/imageUtils.ts) -/

/-- Body of the `for` loop of `calculateHammingDistance`: counts the positions
at which two character lists differ, walking both in lockstep. -/
def countDiffAux : List Char → List Char → Nat
  | c₁ :: r₁, c₂ :: r₂ => (if c₁ ≠ c₂ then 1 else 0) + countDiffAux r₁ r₂
  | _, _ => 0

/-- `calculateHammingDistance` from `src/services/imageUtils.ts`: returns `-1`
when the two strings differ in length, otherwise the number of positions where
the characters differ. -/
def calculateHammingDistance (hash1 hash2 : String) : Int :=
  if hash1.length ≠ hash2.length then -1
  else (countDiffAux hash1.data hash2.data : Int)

/-! ## Cosine similarity (src/services/geminiService.ts, current variant) -/

open Classical in
/-- `calculateCosineSimilarity` from `src/services/geminiService.ts`.  The
single accumulating loop of the source is rendered as the three lockstep sums
it computes (`dotProduct`, `normA`, `normB`); over equal-length inputs they
coincide with the loop's accumulators. -/
noncomputable def calculateCosineSimilarity (vecA vecB : List ℝ) : ℝ :=
  if vecA.length ≠ vecB.length ∨ vecA.length = 0 then 0
  else
    let dotProduct := (List.zipWith (fun a b => a * b) vecA vecB).sum
    let normA := (List.zipWith (fun a b => a * b) vecA vecA).sum
    let normB := (List.zipWith (fun a b => a * b) vecB vecB).sum
    if normA = 0 ∨ normB = 0 then 0
    else dotProduct / (Real.sqrt normA * Real.sqrt normB)

/-- The Euclidean norm of a vector, as used by the spec's
`dot-product-over-norms` formula. -/
noncomputable def vecNorm (v : List ℝ) : ℝ :=
  Real.sqrt ((v.map fun x => x * x).sum)

/-! ## Oracle adapters (src/services/geminiService.ts) -/

/-- Outcome of one `callDoubaoChatAPI` round trip as seen by its caller:
either anything inside the call threw (missing key, HTTP error, empty
content), or a content string came back. -/
inductive ChatOutcome where
  | failure
  | ok (text : String)
  deriving Repr, DecidableEq, Inhabited

/-- Outcome of one `callDoubaoEmbeddingAPI` round trip: the function catches
its own errors, so a failure (missing key, HTTP error, thrown exception)
surfaces as `[]`, and a successful response carries the embedding field
(`data.data?.[0]?.embedding || []`, itself possibly empty). -/
inductive EmbeddingOutcome where
  | failure
  | ok (vec : List ℝ)
  deriving Inhabited

/-- `callDoubaoEmbeddingAPI`: returns `[]` on every failure path
(`catch`/missing key) and the received vector otherwise. -/
noncomputable def callDoubaoEmbeddingAPI : EmbeddingOutcome → List ℝ
  | .failure => []
  | .ok v => v

/-- The description-plus-embedding record returned by `generateImageIndex`. -/
structure ImageIndex where
  description : String
  embedding : List ℝ

/-- `generateImageIndex` from `src/services/geminiService.ts`: obtains a
visual description via the chat oracle, then an embedding for it; its `catch`
returns `{ description: "", embedding: [] }`.  `callDoubaoChatAPI` throws when
the returned content is empty, which lands in the same `catch`; the
`|| 'Image content'` default of the source is kept even though the non-empty
check makes it unreachable. -/
noncomputable def generateImageIndex (chat : ChatOutcome) (emb : EmbeddingOutcome) :
    ImageIndex :=
  match chat with
  | .failure => { description := "", embedding := [] }
  | .ok text =>
    if text.isEmpty then { description := "", embedding := [] }
    else
      let description := if text.isEmpty then "Image content" else text
      { description := description, embedding := callDoubaoEmbeddingAPI emb }

/-- The fields of the untrusted JSON object a verification-oracle response
parses to; any of them may be absent. -/
structure OracleJson where
  scores : Option RiskScores := none
  analysisText : Option String := none
  evidence : Option Evidence := none
  breakdown : Option Breakdown := none
  modificationSuggestion : Option String := none
  deriving Repr, DecidableEq, Inhabited

/-- Outcome of one verification-oracle round trip inside `analyzeImageRisk`:
the call threw (`failure`), the response text did not parse as JSON
(`unparsable`), or it parsed to `j`. -/
inductive OracleOutcome where
  | failure
  | unparsable
  | parsed (j : OracleJson)
  deriving Repr, DecidableEq, Inhabited

/-- JavaScript `s || d` for an optional string `s`: the default is taken both
when the field is absent and when it is the (falsy) empty string. -/
def jsStringOr (s : Option String) (d : String) : String :=
  match s with
  | some t => if t.isEmpty then d else t
  | none => d

/-- JavaScript `s || null` for an optional string: an empty string collapses
to `null`. -/
def jsStringOrNull (s : Option String) : Option String :=
  match s with
  | some t => if t.isEmpty then none else some t
  | none => none

/-- `result.scores?.total || 0`: the oracle-reported total, defaulting to `0`
when the scores object is absent. -/
def reportedTotal (j : OracleJson) : Int :=
  (j.scores.map RiskScores.total).getD 0

/-- The total score reported by the oracle on a given outcome, defaulting to
`0` when absent (call failed, response unparsable, or no `scores` object). -/
def outcomeTotal : OracleOutcome → Int
  | .parsed j => reportedTotal j
  | _ => 0

/-- The all-zero scores object used as default on both result paths. -/
def zeroScores : RiskScores := ⟨0, 0, 0, 0⟩

/-- The default breakdown of the success path (`comment: "无"`). -/
def defaultBreakdown : Breakdown :=
  ⟨⟨0, "无"⟩, ⟨0, "无"⟩, ⟨0, "无"⟩, ⟨0, "无"⟩⟩

/-- The empty-comment breakdown of the failure path. -/
def errorBreakdown : Breakdown :=
  ⟨⟨0, ""⟩, ⟨0, ""⟩, ⟨0, ""⟩, ⟨0, ""⟩⟩

/-- The zero-score sentinel result built by the `catch` block of both
`analyzeImageRisk` variants. -/
def sentinelResult (referenceId : String) (isPHashMatch : Bool) : AssessmentResult :=
  { referenceImageId := referenceId
    isMatch := false
    scores := zeroScores
    analysisText := "分析服务发生错误，请重试。"
    evidence := ⟨[], []⟩
    breakdown := errorBreakdown
    modificationSuggestion := none
    pHashMatch := isPHashMatch }

/-- The result built from a parsed oracle object `j` by the current
`analyzeImageRisk` (first copy in `src/services/geminiService.ts`): every
field falls back to a default via JavaScript `||`. -/
def successResult (referenceId : String) (isPHashMatch : Bool) (j : OracleJson) :
    AssessmentResult :=
  { referenceImageId := referenceId
    isMatch := decide (0 < reportedTotal j)
    scores := j.scores.getD zeroScores
    analysisText := jsStringOr j.analysisText "分析完成"
    evidence := j.evidence.getD ⟨[], []⟩
    breakdown := j.breakdown.getD defaultBreakdown
    modificationSuggestion := jsStringOrNull j.modificationSuggestion
    pHashMatch := isPHashMatch }

/-- `analyzeImageRisk`, current variant (first copy in
`src/services/geminiService.ts`).  The image-byte arguments of the source are
consumed only by the abstracted oracle call and are therefore represented by
the `outcome` drawn from the environment.  An unparsable response is caught by
the inner `try`, leaving `result = {}`, and then flows through the success
path with all defaults. -/
def analyzeImageRisk (referenceId : String) (isPHashMatch : Bool)
    (outcome : OracleOutcome) : AssessmentResult :=
  match outcome with
  | .failure => sentinelResult referenceId isPHashMatch
  | .unparsable => successResult referenceId isPHashMatch {}
  | .parsed j => successResult referenceId isPHashMatch j

/-- `analyzeImageRisk`, legacy variant (second copy in
`src/services/geminiService.ts`, used by `src/unnamed/part_000`).  Here
`JSON.parse` is not guarded by an inner `try`, so an unparsable or empty
response throws into the outer `catch` and yields the sentinel; on the success
path `modificationSuggestion` is passed through without the `|| null`
coercion. -/
def analyzeImageRiskV2 (referenceId : String) (isPHashMatch : Bool)
    (outcome : OracleOutcome) : AssessmentResult :=
  match outcome with
  | .failure => sentinelResult referenceId isPHashMatch
  | .unparsable => sentinelResult referenceId isPHashMatch
  | .parsed j =>
    { successResult referenceId isPHashMatch j with
      modificationSuggestion := j.modificationSuggestion }

/-! ## JavaScript stable sort

`Array.prototype.sort` is stable and, for a consistent comparator `cmp`, keeps
`a` before `b` whenever `cmp a b ≤ 0`.  We model it as a stable insertion sort
over the total preorder `le a b ↔ cmp a b ≤ 0`: each element is inserted in
front of the first already-placed element it does not strictly follow, so tied
elements keep their original relative order. -/

/-- Insert `x` into `l`, skipping over every `y` that strictly precedes `x`
(`le y x` and not `le x y`); `x` lands in front of the first tied or larger
element.  When `l` is sorted and its elements all come later than `x` in the
original list, this realises stable sorting. -/
def insertStable (le : α → α → Prop) [DecidableRel le] (x : α) : List α → List α
  | [] => [x]
  | y :: ys =>
    if le y x ∧ ¬ le x y then y :: insertStable le x ys
    else x :: y :: ys

/-- Stable sort by the total preorder `le` (insertion sort, head inserted into
the sorted tail). -/
def jsStableSort (le : α → α → Prop) [DecidableRel le] : List α → List α
  | [] => []
  | x :: xs => insertStable le x (jsStableSort le xs)

/-! ## Candidate selector (src/App.tsx, `startAssessment` phase 2) -/

/-- One retrieval candidate of `App.tsx`: reference record, fingerprint-match
flag and vector similarity (`{ ref, isPHashMatch, similarity }`). -/
structure Candidate where
  ref : UploadedImage
  isPHashMatch : Bool
  similarity : ℝ

/-- The fingerprint-match flag computed per record in `App.tsx`
(lines 190–195): `isPHashMatch` is set when `targetImage.hash && ref.hash` is
truthy (both present and non-empty, per JavaScript string truthiness) and
`calculateHammingDistance(...) <= 8`; there is no lower-bound guard, so the
`-1` length-mismatch sentinel also passes the test. -/
def isPHashMatchFlag (targetHash refHash : Option String) : Bool :=
  match targetHash, refHash with
  | some th, some rh =>
    if th.isEmpty || rh.isEmpty then false
    else decide (calculateHammingDistance th rh ≤ 8)
  | _, _ => false

/-- The fingerprint-match flag computed per record in `src/unnamed/part_000`
(lines 133–141): identical to `App.tsx` except that the distance must also be
`>= 0`, which excludes the `-1` length-mismatch sentinel. -/
def isPHashMatchFlagV2 (targetHash refHash : Option String) : Bool :=
  match targetHash, refHash with
  | some th, some rh =>
    if th.isEmpty || rh.isEmpty then false
    else
      let d := calculateHammingDistance th rh
      decide (0 ≤ d ∧ d ≤ 8)
  | _, _ => false

/-- The candidate record built inside `gallery.map` in `App.tsx`
(lines 188–204).  `targetEmbedding` is always an array there (hence truthy),
so the similarity guard reduces to `ref.embedding` being present; an empty
embedding then yields similarity `0` through `calculateCosineSimilarity`'s
length guard. -/
noncomputable def mkCandidate (targetHash : Option String) (targetEmbedding : List ℝ)
    (ref : UploadedImage) : Candidate :=
  { ref := ref
    isPHashMatch := isPHashMatchFlag targetHash ref.hash
    similarity :=
      match ref.embedding with
      | some re => calculateCosineSimilarity targetEmbedding re
      | none => 0 }

/-- Comparator of the candidate sort in `App.tsx` (lines 207–211), as the
preorder `cmp a b ≤ 0`: fingerprint matches first, then similarity
descending. -/
def candLe (a b : Candidate) : Prop :=
  if a.isPHashMatch = b.isPHashMatch then b.similarity ≤ a.similarity
  else a.isPHashMatch = true

noncomputable instance : DecidableRel candLe := fun _ _ => Classical.propDecidable _

/-- Comparator of the final result sort in `App.tsx` (line 255), as the
preorder `cmp a b ≤ 0`: total score descending only. -/
def finalLe (a b : AssessmentResult) : Prop :=
  b.scores.total ≤ a.scores.total

instance : DecidableRel finalLe := fun _ _ =>
  inferInstanceAs (Decidable (_ ≤ _))

/-- Comparator of the final result sort in `src/unnamed/part_000`
(lines 187–191), as the preorder `cmp a b ≤ 0`: fingerprint matches first,
then total score descending. -/
def finalLeV2 (a b : AssessmentResult) : Prop :=
  if a.pHashMatch = b.pHashMatch then b.scores.total ≤ a.scores.total
  else a.pHashMatch = true

instance : DecidableRel finalLeV2 := fun a b => by
  unfold finalLeV2; infer_instance

/-! ## Assessment orchestrator, current variant (src/App.tsx) -/

/-- Environment of one `App.tsx` assessment run: whether the target-byte and
per-reference-byte fetches succeed, the chat/embedding outcomes for indexing
the target, and the verification-oracle outcome per reference id.  Fetched
byte payloads are opaque to the core (only the abstracted oracle consumes
them), so fetches are modelled by their success flag. -/
structure EnvV1 where
  targetFetch : Bool
  chat : ChatOutcome
  emb : EmbeddingOutcome
  refFetch : String → Bool
  oracle : String → OracleOutcome

/-- The observable outcome of one orchestrator invocation: the last status
written and the final result list. -/
structure RunOutcome where
  status : AnalysisStatus
  results : List AssessmentResult

/-- The per-candidate analysis loop of `App.tsx` (lines 222–250): in selector
order, skip candidates whose bytes cannot be fetched, call the verification
oracle otherwise, inject the precomputed vector similarity, and keep only
results with a positive total. -/
noncomputable def analysisLoop (env : EnvV1) (tops : List Candidate) :
    List AssessmentResult :=
  tops.filterMap fun c =>
    if env.refFetch c.ref.id then
      let result := analyzeImageRisk c.ref.id c.isPHashMatch (env.oracle c.ref.id)
      let result := { result with vectorSimilarity := some c.similarity }
      if 0 < result.scores.total then some result else none
    else none

/-- `startAssessment` from `src/App.tsx` (lines 169–261).  `status0` and
`results0` are the React state the function starts from (set to
`idle`/`[]` by `handleTargetUpload`); early returns leave them untouched
except for any status already written. -/
noncomputable def startAssessment (env : EnvV1) (targetImage : Option UploadedImage)
    (gallery : List UploadedImage) (status0 : AnalysisStatus)
    (results0 : List AssessmentResult) : RunOutcome :=
  match targetImage with
  | none => ⟨status0, results0⟩
  | some target =>
    if gallery.length = 0 then ⟨status0, results0⟩
    else if env.targetFetch = false then
      ⟨⟨.indexing, 10, some "正在分析目标图片特征..."⟩, results0⟩
    else
      let targetEmbedding : List ℝ :=
        match target.embedding with
        | some e => e
        | none => (generateImageIndex env.chat env.emb).embedding
      let candidates := gallery.map (mkCandidate target.hash targetEmbedding)
      let sortedCandidates := jsStableSort candLe candidates
      let topCandidates := sortedCandidates.take 5
      let analysisResults := analysisLoop env topCandidates
      ⟨⟨.complete, 100, none⟩, jsStableSort finalLe analysisResults⟩

/-! ## Assessment orchestrator, legacy variant (src/unnamed/part_000) -/

/-- Environment of one `part_000` assessment run: per-reference byte
availability (a `data:` URL never fails; a remote fetch may) and the
verification-oracle outcome per reference id. -/
structure EnvV2 where
  refFetch : String → Bool
  oracle : String → OracleOutcome

/-- The batching of `part_000`'s analysis loop: `gallery.slice(i, i + 3)` for
`i = 0, 3, 6, …`. -/
def chunksOf3 : List α → List (List α)
  | [] => []
  | [a] => [[a]]
  | [a, b] => [[a, b]]
  | a :: b :: c :: rest => [a, b, c] :: chunksOf3 rest

/-- One batch of `part_000`'s loop (lines 128–182): for each reference,
compute the fingerprint flag, skip it if its bytes cannot be fetched
(`return null`), otherwise call the verification oracle; then keep the
non-null results with a positive total (`if (r && r.scores.total > 0)`). -/
def processBatch (env : EnvV2) (targetHash : Option String)
    (batch : List UploadedImage) : List AssessmentResult :=
  (batch.filterMap fun refImg =>
    let isPHashMatch := isPHashMatchFlagV2 targetHash refImg.hash
    if env.refFetch refImg.id then
      some (analyzeImageRiskV2 refImg.id isPHashMatch (env.oracle refImg.id))
    else none).filter fun r => decide (0 < r.scores.total)

/-- `startAssessment` from `src/unnamed/part_000` (lines 115–197): analyze the
whole gallery in batches of 3, accumulate the surviving results in batch
order, mark the run complete and sort fingerprint-matches-first, then by
total. -/
def startAssessmentV2 (env : EnvV2) (targetImage : Option UploadedImage)
    (gallery : List UploadedImage) (status0 : AnalysisStatus)
    (results0 : List AssessmentResult) : RunOutcome :=
  match targetImage with
  | none => ⟨status0, results0⟩
  | some target =>
    if gallery.length = 0 then ⟨status0, results0⟩
    else
      let allResults := (chunksOf3 gallery).foldl
        (fun acc batch => acc ++ processBatch env target.hash batch) []
      ⟨⟨.complete, 100, none⟩, jsStableSort finalLeV2 allResults⟩

/-! ## Claim-side orderings, spec-side flags, concrete run inputs -/

/-- The single final ordering policy the spec adopts: fingerprint-match flag
descending (true before false), then oracle-reported total descending.  The
comparator of `part_000` realises exactly this preorder. -/
def specFinalOrder (a b : AssessmentResult) : Prop :=
  if a.pHashMatch = b.pHashMatch then b.scores.total ≤ a.scores.total
  else a.pHashMatch = true

instance : DecidableRel specFinalOrder := fun a b => by
  unfold specFinalOrder; infer_instance

/-- The fingerprint-match flag as the spec words it: both fingerprints
present (non-empty, per JavaScript truthiness) with equal lengths and Hamming
distance at most 8; a record whose distance is unknown (mismatched lengths)
is never flagged. -/
def specFingerprintMatch (targetHash refHash : Option String) : Bool :=
  match targetHash, refHash with
  | some th, some rh =>
    if th.isEmpty || rh.isEmpty then false
    else decide (th.length = rh.length ∧ calculateHammingDistance th rh ≤ 8)
  | _, _ => false

/-! Concrete inputs used by witnesses and counterexamples. -/

/-- A parsed oracle response whose reported total is `t`. -/
def exJson (t : Int) : OracleJson := { scores := some ⟨0, 0, 0, t⟩ }

/-- A gallery record with no fingerprint and no embedding. -/
def exRef : UploadedImage := { id := "r1", url := "u1", name := "n1", uploadedAt := 0 }

/-- A target record with no fingerprint and no embedding. -/
def exTarget : UploadedImage := { id := "t", url := "ut", name := "nt", uploadedAt := 0 }

/-- The status a fresh target upload resets to. -/
def exIdle : AnalysisStatus := { step := .idle, progress := 0 }

/-- Environment in which every fetch succeeds and the oracle reports
total 50 for every reference. -/
def exEnvV1 : EnvV1 :=
  { targetFetch := true, chat := .failure, emb := .failure,
    refFetch := fun _ => true, oracle := fun _ => .parsed (exJson 50) }

/-- The legacy-orchestrator counterpart of `exEnvV1`. -/
def exEnvV2 : EnvV2 :=
  { refFetch := fun _ => true, oracle := fun _ => .parsed (exJson 50) }

/-- The result the current orchestrator surfaces on the `exEnvV1` run over
the one-record gallery `[exRef]`. -/
def exResult : AssessmentResult :=
  { analyzeImageRisk "r1" false (.parsed (exJson 50)) with vectorSimilarity := some 0 }

/-- The result the legacy orchestrator surfaces on the `exEnvV2` run over
the one-record gallery `[exRef]`. -/
def exResultV2 : AssessmentResult :=
  analyzeImageRiskV2 "r1" false (.parsed (exJson 50))

/-- Nine-bit fingerprint made of zeros: at distance 9 from `cxHashB` and 0
from itself. -/
def cxHashA : String := "000000000"

/-- Nine-bit fingerprint made of ones. -/
def cxHashB : String := "111111111"

/-- Counterexample target: fingerprint `cxHashA`, no embedding. -/
def cxTarget : UploadedImage :=
  { id := "t", url := "ut", name := "nt", uploadedAt := 0, hash := some cxHashA }

/-- Counterexample reference 1: fingerprint at distance 9 from the target's
(not a fingerprint match); its oracle total will be 90. -/
def cxRef1 : UploadedImage :=
  { id := "r1", url := "u1", name := "n1", uploadedAt := 0, hash := some cxHashB }

/-- Counterexample reference 2: fingerprint equal to the target's
(a fingerprint match); its oracle total will be 50. -/
def cxRef2 : UploadedImage :=
  { id := "r2", url := "u2", name := "n2", uploadedAt := 0, hash := some cxHashA }

/-- Counterexample environment: all fetches succeed; the oracle scores the
non-matching `r1` with total 90 and everything else with total 50. -/
def cxEnvV1 : EnvV1 :=
  { targetFetch := true, chat := .failure, emb := .failure,
    refFetch := fun _ => true,
    oracle := fun i => if i = "r1" then .parsed (exJson 90) else .parsed (exJson 50) }

/-- First surfaced result of the counterexample run: total 90, no
fingerprint match. -/
def cxRes1 : AssessmentResult :=
  { analyzeImageRisk "r1" false (.parsed (exJson 90)) with vectorSimilarity := some 0 }

/-- Second surfaced result of the counterexample run: total 50, fingerprint
match. -/
def cxRes2 : AssessmentResult :=
  { analyzeImageRisk "r2" true (.parsed (exJson 50)) with vectorSimilarity := some 0 }

/-! ## Generic facts about the stable sort -/

theorem insertStable_perm (le : α → α → Prop) [DecidableRel le] (x : α) :
    ∀ l : List α, List.Perm (insertStable le x l) (x :: l)
  | [] => by simp [insertStable]
  | y :: ys => by
    rw [insertStable]
    by_cases hc : le y x ∧ ¬ le x y
    · rw [if_pos hc]
      exact ((insertStable_perm le x ys).cons y).trans (List.Perm.swap x y ys)
    · rw [if_neg hc]

theorem jsStableSort_perm (le : α → α → Prop) [DecidableRel le] :
    ∀ l : List α, List.Perm (jsStableSort le l) l
  | [] => by simp [jsStableSort]
  | x :: xs => by
    rw [jsStableSort]
    exact (insertStable_perm le x (jsStableSort le xs)).trans
      ((jsStableSort_perm le xs).cons x)

theorem mem_jsStableSort (le : α → α → Prop) [DecidableRel le] (l : List α) (a : α) :
    a ∈ jsStableSort le l ↔ a ∈ l :=
  (jsStableSort_perm le l).mem_iff

theorem insertStable_pairwise (le : α → α → Prop) [DecidableRel le]
    (htot : ∀ a b, le a b ∨ le b a) (htrans : ∀ a b c, le a b → le b c → le a c)
    (x : α) : ∀ l : List α, l.Pairwise le → (insertStable le x l).Pairwise le
  | [], _ => by simp [insertStable]
  | y :: ys, h => by
    rw [insertStable]
    rcases List.pairwise_cons.mp h with ⟨hy, hys⟩
    by_cases hc : le y x ∧ ¬ le x y
    · rw [if_pos hc]
      refine List.pairwise_cons.mpr ⟨?_, insertStable_pairwise le htot htrans x ys hys⟩
      intro z hz
      have hz' : z = x ∨ z ∈ ys := by
        simpa using (insertStable_perm le x ys).mem_iff.mp hz
      rcases hz' with rfl | hzys
      · exact hc.1
      · exact hy z hzys
    · rw [if_neg hc]
      have hxy : le x y := by
        rcases htot x y with h1 | h1
        · exact h1
        · by_contra h2
          exact hc ⟨h1, h2⟩
      refine List.pairwise_cons.mpr ⟨?_, h⟩
      intro z hz
      rcases List.mem_cons.mp hz with rfl | hzys
      · exact hxy
      · exact htrans x y z hxy (hy z hzys)

theorem jsStableSort_pairwise (le : α → α → Prop) [DecidableRel le]
    (htot : ∀ a b, le a b ∨ le b a) (htrans : ∀ a b c, le a b → le b c → le a c) :
    ∀ l : List α, (jsStableSort le l).Pairwise le
  | [] => by simp [jsStableSort]
  | x :: xs => by
    rw [jsStableSort]
    exact insertStable_pairwise le htot htrans x (jsStableSort le xs)
      (jsStableSort_pairwise le htot htrans xs)

theorem filter_insertStable_of_neg (le : α → α → Prop) [DecidableRel le]
    (p : α → Bool) (x : α) (hx : p x = false) :
    ∀ l : List α, (insertStable le x l).filter p = l.filter p
  | [] => by simp [insertStable, hx]
  | y :: ys => by
    rw [insertStable]
    by_cases hc : le y x ∧ ¬ le x y
    · rw [if_pos hc]
      by_cases hy : p y
      · simp [List.filter_cons, hy, filter_insertStable_of_neg le p x hx ys]
      · simp [List.filter_cons, hy, filter_insertStable_of_neg le p x hx ys]
    · rw [if_neg hc]
      simp [List.filter_cons, hx]

theorem filter_insertStable_of_tied (le : α → α → Prop) [DecidableRel le]
    (htrans : ∀ a b c, le a b → le b c → le a c) (a x : α)
    (hx : le a x ∧ le x a) :
    ∀ l : List α,
      (insertStable le x l).filter (fun y => decide (le a y ∧ le y a)) =
        x :: l.filter (fun y => decide (le a y ∧ le y a))
  | [] => by simp [insertStable, hx.1, hx.2]
  | y :: ys => by
    rw [insertStable]
    by_cases hc : le y x ∧ ¬ le x y
    · rw [if_pos hc]
      have hy : ¬ (le a y ∧ le y a) := by
        rintro ⟨h1, _⟩
        exact hc.2 (htrans x a y hx.2 h1)
      simp only [List.filter_cons]
      rw [if_neg (by simpa using hy), if_neg (by simpa using hy)]
      exact filter_insertStable_of_tied le htrans a x hx ys
    · rw [if_neg hc]
      simp [List.filter_cons, hx.1, hx.2]

theorem jsStableSort_filter_tied (le : α → α → Prop) [DecidableRel le]
    (htrans : ∀ a b c, le a b → le b c → le a c) (a : α) :
    ∀ l : List α,
      (jsStableSort le l).filter (fun y => decide (le a y ∧ le y a)) =
        l.filter (fun y => decide (le a y ∧ le y a))
  | [] => by simp [jsStableSort]
  | x :: xs => by
    rw [jsStableSort]
    by_cases hx : le a x ∧ le x a
    · rw [filter_insertStable_of_tied le htrans a x hx (jsStableSort le xs)]
      simp only [List.filter_cons]
      rw [if_pos (by simpa using hx)]
      rw [jsStableSort_filter_tied le htrans a xs]
    · rw [filter_insertStable_of_neg le _ x (by simpa using hx) (jsStableSort le xs)]
      simp only [List.filter_cons]
      rw [if_neg (by simpa using hx)]
      exact jsStableSort_filter_tied le htrans a xs

/-! ## Facts about the Hamming distance (claim C7) -/

theorem countDiffAux_eq_countP :
    ∀ l₁ l₂ : List Char,
      countDiffAux l₁ l₂ = (l₁.zip l₂).countP fun p => decide (p.1 ≠ p.2)
  | [], _ => by cases ‹List Char› <;> simp [countDiffAux]
  | _ :: _, [] => by simp [countDiffAux]
  | c₁ :: r₁, c₂ :: r₂ => by
    rw [countDiffAux, List.zip_cons_cons, List.countP_cons,
      countDiffAux_eq_countP r₁ r₂]
    by_cases hc : c₁ = c₂ <;> simp [hc, Nat.add_comm]

theorem countDiffAux_le_length :
    ∀ l₁ l₂ : List Char, countDiffAux l₁ l₂ ≤ l₁.length
  | [], _ => by cases ‹List Char› <;> simp [countDiffAux]
  | _ :: _, [] => by simp [countDiffAux]
  | c₁ :: r₁, c₂ :: r₂ => by
    rw [countDiffAux, List.length_cons]
    have := countDiffAux_le_length r₁ r₂
    by_cases hc : c₁ = c₂ <;> simp [hc] <;> omega

/-- C7: `calculateHammingDistance` signals a length mismatch with the
out-of-band value `-1` (the code's rendering of `LengthMismatch`: a non-crash
sentinel outside the valid range) exactly when the two strings differ in
length; on equal lengths it returns the number of positions at which the
strings differ, a value in `0..length`. -/
theorem C7_hammingDistance_spec (a b : String) :
    (a.length ≠ b.length → calculateHammingDistance a b = -1) ∧
    (a.length = b.length →
      calculateHammingDistance a b =
        ((a.data.zip b.data).countP fun p => decide (p.1 ≠ p.2) : Int) ∧
      0 ≤ calculateHammingDistance a b ∧
      calculateHammingDistance a b ≤ (a.length : Int)) := by
  constructor
  · intro h
    simp [calculateHammingDistance, h]
  · intro h
    rw [calculateHammingDistance, if_neg (by simpa using h)]
    refine ⟨by rw [countDiffAux_eq_countP], by positivity, ?_⟩
    have h1 := countDiffAux_le_length a.data b.data
    have h2 : a.length = a.data.length := rfl
    omega

/-- Witness for C7 at concrete inputs: a length mismatch yields `-1`, and the
equal-length strings `"01"` and `"11"` are at distance `1`. -/
theorem C7_hammingDistance_spec_witness :
    calculateHammingDistance "0" "01" = -1 ∧ calculateHammingDistance "01" "11" = 1 := by
  constructor
  · exact (C7_hammingDistance_spec "0" "01").1 (by decide)
  · have h := ((C7_hammingDistance_spec "01" "11").2 (by decide)).1
    rw [h]
    decide

/-! ## Facts about the cosine similarity (claim C8) -/

theorem zipWith_mul_self_eq_map :
    ∀ v : List ℝ,
      (List.zipWith (fun a b => a * b) v v).sum = (v.map fun x => x * x).sum
  | [] => by simp
  | a :: as => by
    rw [List.zipWith_cons_cons, List.sum_cons, List.map_cons, List.sum_cons,
      zipWith_mul_self_eq_map as]

theorem map_mul_self_sum_nonneg (v : List ℝ) : 0 ≤ (v.map fun x => x * x).sum := by
  induction v with
  | nil => simp
  | cons a as ih =>
    rw [List.map_cons, List.sum_cons]
    exact add_nonneg (mul_self_nonneg a) ih

theorem sum_eq_range_getD (l : List ℝ) :
    l.sum = ∑ i ∈ Finset.range l.length, l.getD i 0 := by
  induction l with
  | nil => simp
  | cons a l ih =>
    rw [List.sum_cons, List.length_cons, Finset.sum_range_succ']
    simp only [List.getD_cons_succ, List.getD_cons_zero]
    rw [← ih, add_comm]

theorem zipWith_mul_sum_eq (u : List ℝ) :
    ∀ v : List ℝ, u.length = v.length →
      (List.zipWith (fun a b => a * b) u v).sum =
        ∑ i ∈ Finset.range u.length, u.getD i 0 * v.getD i 0 := by
  induction u with
  | nil =>
    intro v h
    simp
  | cons a as ih =>
    intro v h
    cases v with
    | nil => simp at h
    | cons b bs =>
      rw [List.zipWith_cons_cons, List.sum_cons, List.length_cons,
        Finset.sum_range_succ']
      simp only [List.getD_cons_succ, List.getD_cons_zero]
      rw [ih bs (by simpa using h), add_comm]

/-- Cauchy–Schwarz for the lockstep sums of `calculateCosineSimilarity`. -/
theorem list_cauchy_schwarz (u v : List ℝ) (h : u.length = v.length) :
    ((List.zipWith (fun a b => a * b) u v).sum) ^ 2 ≤
      (List.zipWith (fun a b => a * b) u u).sum *
        (List.zipWith (fun a b => a * b) v v).sum := by
  rw [zipWith_mul_sum_eq u v h, zipWith_mul_sum_eq u u rfl,
    zipWith_mul_sum_eq v v rfl, show v.length = u.length from h.symm]
  have hcs := Finset.sum_mul_sq_le_sq_mul_sq (Finset.range u.length)
    (fun i => u.getD i 0) (fun i => v.getD i 0)
  simpa [pow_two] using hcs

theorem cosine_div_bound (D A B : ℝ) (hA : 0 < A) (hB : 0 < B)
    (hcs : D ^ 2 ≤ A * B) : |D / (Real.sqrt A * Real.sqrt B)| ≤ 1 := by
  have hsA : 0 < Real.sqrt A := Real.sqrt_pos.mpr hA
  have hsB : 0 < Real.sqrt B := Real.sqrt_pos.mpr hB
  have habs : |D| ≤ Real.sqrt A * Real.sqrt B := by
    have h1 : |D| = Real.sqrt (D ^ 2) := (Real.sqrt_sq_eq_abs D).symm
    rw [h1, ← Real.sqrt_mul hA.le]
    exact Real.sqrt_le_sqrt hcs
  rw [abs_div, abs_of_pos (mul_pos hsA hsB), div_le_one (mul_pos hsA hsB)]
  exact habs

/-- C8: `calculateCosineSimilarity` returns `0` when the two vectors differ in
length, when either vector is empty, and when either vector's norm is zero;
otherwise it returns the dot product divided by the product of the norms, a
value in `[-1, 1]`. -/
theorem C8_cosineSimilarity_spec (u v : List ℝ) :
    (u.length ≠ v.length → calculateCosineSimilarity u v = 0) ∧
    (u = [] ∨ v = [] → calculateCosineSimilarity u v = 0) ∧
    (vecNorm u = 0 ∨ vecNorm v = 0 → calculateCosineSimilarity u v = 0) ∧
    (u.length = v.length → vecNorm u ≠ 0 → vecNorm v ≠ 0 →
      calculateCosineSimilarity u v =
        (List.zipWith (fun a b => a * b) u v).sum / (vecNorm u * vecNorm v) ∧
      -1 ≤ calculateCosineSimilarity u v ∧ calculateCosineSimilarity u v ≤ 1) := by
  refine ⟨?_, ?_, ?_, ?_⟩
  · intro h
    rw [calculateCosineSimilarity, if_pos (Or.inl h)]
  · rintro (rfl | rfl)
    · rw [calculateCosineSimilarity, if_pos (Or.inr List.length_nil)]
    · by_cases hl : u.length = List.length ([] : List ℝ)
      · rw [calculateCosineSimilarity, if_pos (Or.inr (by simpa using hl))]
      · rw [calculateCosineSimilarity, if_pos (Or.inl hl)]
  · intro h
    have hAB : (u.map fun x => x * x).sum = 0 ∨ (v.map fun x => x * x).sum = 0 := by
      rcases h with h | h
      · exact Or.inl (le_antisymm (Real.sqrt_eq_zero'.mp h) (map_mul_self_sum_nonneg u))
      · exact Or.inr (le_antisymm (Real.sqrt_eq_zero'.mp h) (map_mul_self_sum_nonneg v))
    by_cases hc : u.length ≠ v.length ∨ u.length = 0
    · rw [calculateCosineSimilarity, if_pos hc]
    · rw [calculateCosineSimilarity, if_neg hc]
      show (if (List.zipWith (fun a b => a * b) u u).sum = 0 ∨
          (List.zipWith (fun a b => a * b) v v).sum = 0 then (0:ℝ) else _) = 0
      rw [if_pos (by rw [zipWith_mul_self_eq_map, zipWith_mul_self_eq_map]; exact hAB)]
  · intro hlen hnA hnB
    have hA0 : (u.map fun x => x * x).sum ≠ 0 := by
      intro h
      exact hnA (by rw [vecNorm, h, Real.sqrt_zero])
    have hB0 : (v.map fun x => x * x).sum ≠ 0 := by
      intro h
      exact hnB (by rw [vecNorm, h, Real.sqrt_zero])
    have hApos : 0 < (u.map fun x => x * x).sum :=
      lt_of_le_of_ne (map_mul_self_sum_nonneg u) (Ne.symm hA0)
    have hBpos : 0 < (v.map fun x => x * x).sum :=
      lt_of_le_of_ne (map_mul_self_sum_nonneg v) (Ne.symm hB0)
    have hne : u ≠ [] := by
      rintro rfl
      simp at hA0
    have key : calculateCosineSimilarity u v =
        (List.zipWith (fun a b => a * b) u v).sum / (vecNorm u * vecNorm v) := by
      rw [calculateCosineSimilarity,
        if_neg (by push_neg; exact ⟨hlen, by simpa [List.length_eq_zero] using hne⟩)]
      show (if (List.zipWith (fun a b => a * b) u u).sum = 0 ∨
          (List.zipWith (fun a b => a * b) v v).sum = 0 then (0:ℝ) else
          (List.zipWith (fun a b => a * b) u v).sum /
            (Real.sqrt ((List.zipWith (fun a b => a * b) u u).sum) *
              Real.sqrt ((List.zipWith (fun a b => a * b) v v).sum))) = _
      rw [if_neg (by rw [zipWith_mul_self_eq_map, zipWith_mul_self_eq_map]; tauto),
        zipWith_mul_self_eq_map, zipWith_mul_self_eq_map]
      rfl
    refine ⟨key, ?_⟩
    have hcs := list_cauchy_schwarz u v hlen
    rw [zipWith_mul_self_eq_map, zipWith_mul_self_eq_map] at hcs
    have hbound := cosine_div_bound ((List.zipWith (fun a b => a * b) u v).sum)
      ((u.map fun x => x * x).sum) ((v.map fun x => x * x).sum) hApos hBpos hcs
    rw [← vecNorm, ← vecNorm, ← key] at hbound
    exact abs_le.mp hbound

/-- Witness for C8: on the one-element vectors `[1]` and `[1]` the similarity
is the dot product over the product of norms and lies in `[-1, 1]`. -/
theorem C8_cosineSimilarity_spec_witness :
    calculateCosineSimilarity [(1:ℝ)] [1] =
      (List.zipWith (fun a b => a * b) [(1:ℝ)] [1]).sum /
        (vecNorm [(1:ℝ)] * vecNorm [(1:ℝ)]) ∧
    -1 ≤ calculateCosineSimilarity [(1:ℝ)] [1] ∧
      calculateCosineSimilarity [(1:ℝ)] [1] ≤ 1 := by
  have hnorm : vecNorm [(1:ℝ)] ≠ 0 := by
    rw [vecNorm]
    simp
  exact (C8_cosineSimilarity_spec [(1:ℝ)] [1]).2.2.2 rfl hnorm hnorm

/-! ## Facts about `analyzeImageRisk` (claims C6, C10) -/

theorem analyzeImageRisk_scores_total (referenceId : String) (hint : Bool)
    (o : OracleOutcome) :
    (analyzeImageRisk referenceId hint o).scores.total = outcomeTotal o := by
  cases o with
  | failure => rfl
  | unparsable => rfl
  | parsed j =>
    show (j.scores.getD zeroScores).total = reportedTotal j
    cases h : j.scores <;> simp [reportedTotal, h, zeroScores]

theorem analyzeImageRisk_isMatch (referenceId : String) (hint : Bool)
    (o : OracleOutcome) :
    (analyzeImageRisk referenceId hint o).isMatch = decide (0 < outcomeTotal o) := by
  cases o with
  | failure => simp [analyzeImageRisk, sentinelResult, outcomeTotal]
  | unparsable => rfl
  | parsed j => rfl

theorem analyzeImageRisk_pHashMatch (referenceId : String) (hint : Bool)
    (o : OracleOutcome) :
    (analyzeImageRisk referenceId hint o).pHashMatch = hint := by
  cases o <;> rfl

theorem analyzeImageRisk_refId (referenceId : String) (hint : Bool)
    (o : OracleOutcome) :
    (analyzeImageRisk referenceId hint o).referenceImageId = referenceId := by
  cases o <;> rfl

theorem analyzeImageRiskV2_scores_total (referenceId : String) (hint : Bool)
    (o : OracleOutcome) :
    (analyzeImageRiskV2 referenceId hint o).scores.total = outcomeTotal o := by
  cases o with
  | failure => rfl
  | unparsable => rfl
  | parsed j =>
    show (j.scores.getD zeroScores).total = reportedTotal j
    cases h : j.scores <;> simp [reportedTotal, h, zeroScores]

theorem analyzeImageRiskV2_isMatch (referenceId : String) (hint : Bool)
    (o : OracleOutcome) :
    (analyzeImageRiskV2 referenceId hint o).isMatch = decide (0 < outcomeTotal o) := by
  cases o with
  | failure => simp [analyzeImageRiskV2, sentinelResult, outcomeTotal]
  | unparsable => simp [analyzeImageRiskV2, sentinelResult, outcomeTotal]
  | parsed j => rfl

theorem analyzeImageRiskV2_pHashMatch (referenceId : String) (hint : Bool)
    (o : OracleOutcome) :
    (analyzeImageRiskV2 referenceId hint o).pHashMatch = hint := by
  cases o <;> rfl

/-- C6: neither `analyzeImageRisk` variant lets an exception past its
boundary — both are total functions of their oracle outcome — and on an
internal failure (a thrown oracle call; for the legacy variant also an
unparsable response, which its unguarded `JSON.parse` turns into a throw)
they return the zero-score sentinel: `total = 0`, `isMatch = false`, the
error analysis text, carrying the original reference id and the caller's
fingerprint-match hint. -/
theorem C6_analyzeImageRisk_never_throws (referenceId : String) (hint : Bool) :
    ((analyzeImageRisk referenceId hint .failure).scores = zeroScores ∧
      (analyzeImageRisk referenceId hint .failure).isMatch = false ∧
      (analyzeImageRisk referenceId hint .failure).analysisText =
        "分析服务发生错误，请重试。" ∧
      (analyzeImageRisk referenceId hint .failure).referenceImageId = referenceId ∧
      (analyzeImageRisk referenceId hint .failure).pHashMatch = hint) ∧
    ((analyzeImageRiskV2 referenceId hint .failure).scores = zeroScores ∧
      (analyzeImageRiskV2 referenceId hint .failure).isMatch = false ∧
      (analyzeImageRiskV2 referenceId hint .failure).analysisText =
        "分析服务发生错误，请重试。" ∧
      (analyzeImageRiskV2 referenceId hint .failure).referenceImageId = referenceId ∧
      (analyzeImageRiskV2 referenceId hint .failure).pHashMatch = hint) ∧
    (analyzeImageRiskV2 referenceId hint .unparsable =
      sentinelResult referenceId hint) := by
  exact ⟨⟨rfl, rfl, rfl, rfl, rfl⟩, ⟨rfl, rfl, rfl, rfl, rfl⟩, rfl⟩

/-! ## Membership in the final result lists -/

theorem mem_foldl_append {α β : Type _} (f : β → List α) (l : List β)
    (init : List α) (a : α) :
    a ∈ l.foldl (fun acc b => acc ++ f b) init ↔ a ∈ init ∨ ∃ b ∈ l, a ∈ f b := by
  induction l generalizing init with
  | nil => simp
  | cons b bs ih =>
    rw [List.foldl_cons, ih (init ++ f b)]
    simp [List.mem_append, or_assoc]

theorem mem_analysisLoop {env : EnvV1} {tops : List Candidate}
    {r : AssessmentResult} (hr : r ∈ analysisLoop env tops) :
    ∃ c ∈ tops, env.refFetch c.ref.id = true ∧
      r = { analyzeImageRisk c.ref.id c.isPHashMatch (env.oracle c.ref.id) with
            vectorSimilarity := some c.similarity } ∧
      0 < r.scores.total := by
  rcases List.mem_filterMap.mp hr with ⟨c, hc, hfc⟩
  by_cases hfetch : env.refFetch c.ref.id
  · rw [if_pos hfetch] at hfc
    by_cases htot : 0 <
        ({ analyzeImageRisk c.ref.id c.isPHashMatch (env.oracle c.ref.id) with
           vectorSimilarity := some c.similarity } : AssessmentResult).scores.total
    · rw [if_pos htot] at hfc
      have heq := Option.some_inj.mp hfc
      exact ⟨c, hc, hfetch, heq.symm, heq ▸ htot⟩
    · rw [if_neg htot] at hfc
      exact absurd hfc (by simp)
  · rw [if_neg hfetch] at hfc
    exact absurd hfc (by simp)

theorem mem_processBatch {env : EnvV2} {targetHash : Option String}
    {batch : List UploadedImage} {r : AssessmentResult}
    (hr : r ∈ processBatch env targetHash batch) :
    ∃ refImg ∈ batch, env.refFetch refImg.id = true ∧
      r = analyzeImageRiskV2 refImg.id
            (isPHashMatchFlagV2 targetHash refImg.hash) (env.oracle refImg.id) ∧
      0 < r.scores.total := by
  rw [processBatch] at hr
  rcases List.mem_filter.mp hr with ⟨hmem, htot⟩
  rcases List.mem_filterMap.mp hmem with ⟨refImg, href, hfc⟩
  by_cases hfetch : env.refFetch refImg.id
  · rw [if_pos hfetch] at hfc
    exact ⟨refImg, href, hfetch, (Option.some_inj.mp hfc).symm, by simpa using htot⟩
  · rw [if_neg hfetch] at hfc
    exact absurd hfc (by simp)

/-! ## Results surfaced by the orchestrators -/

theorem startAssessment_results_mem {env : EnvV1} {t : Option UploadedImage}
    {g : List UploadedImage} {s0 : AnalysisStatus} {r : AssessmentResult}
    (hr : r ∈ (startAssessment env t g s0 []).results) :
    0 < r.scores.total ∧ r.isMatch = true := by
  cases t with
  | none => simp [startAssessment] at hr
  | some target =>
    simp only [startAssessment] at hr
    by_cases hg : g.length = 0
    · rw [if_pos hg] at hr
      simp at hr
    · rw [if_neg hg] at hr
      by_cases hf : env.targetFetch = false
      · rw [if_pos hf] at hr
        simp at hr
      · rw [if_neg hf] at hr
        have hr' := (mem_jsStableSort finalLe _ r).mp hr
        rcases mem_analysisLoop hr' with ⟨c, _, _, heq, htot⟩
        refine ⟨htot, ?_⟩
        have hm : r.isMatch = decide (0 < outcomeTotal (env.oracle c.ref.id)) := by
          rw [heq]
          exact analyzeImageRisk_isMatch _ _ _
        have ht : r.scores.total = outcomeTotal (env.oracle c.ref.id) := by
          rw [heq]
          exact analyzeImageRisk_scores_total _ _ _
        rw [hm]
        simp only [decide_eq_true_eq]
        rw [← ht]
        exact htot

theorem startAssessmentV2_results_mem {env : EnvV2} {t : Option UploadedImage}
    {g : List UploadedImage} {s0 : AnalysisStatus} {r : AssessmentResult}
    (hr : r ∈ (startAssessmentV2 env t g s0 []).results) :
    0 < r.scores.total ∧ r.isMatch = true := by
  cases t with
  | none => simp [startAssessmentV2] at hr
  | some target =>
    simp only [startAssessmentV2] at hr
    by_cases hg : g.length = 0
    · rw [if_pos hg] at hr
      simp at hr
    · rw [if_neg hg] at hr
      have hr' := (mem_jsStableSort finalLeV2 _ r).mp hr
      rw [mem_foldl_append] at hr'
      rcases hr' with h | ⟨batch, _, hbatch⟩
      · simp at h
      · rcases mem_processBatch hbatch with ⟨refImg, _, _, heq, htot⟩
        refine ⟨htot, ?_⟩
        have hm : r.isMatch =
            decide (0 < outcomeTotal (env.oracle refImg.id)) := by
          rw [heq]
          exact analyzeImageRiskV2_isMatch _ _ _
        have ht : r.scores.total = outcomeTotal (env.oracle refImg.id) := by
          rw [heq]
          exact analyzeImageRiskV2_scores_total _ _ _
        rw [hm]
        simp only [decide_eq_true_eq]
        rw [← ht]
        exact htot

/-- Evaluation of the current orchestrator on the one-record example run. -/
theorem exV1_results :
    (startAssessment exEnvV1 (some exTarget) [exRef] exIdle []).results =
      [exResult] := rfl

/-- Evaluation of the legacy orchestrator on the one-record example run. -/
theorem exV2_results :
    (startAssessmentV2 exEnvV2 (some exTarget) [exRef] exIdle []).results =
      [exResultV2] := rfl

/-- C4: no per-candidate failure aborts a run.  For every environment —
arbitrary combination of per-candidate byte-fetch failures and verification
oracle failures — a started assessment over a non-empty collection ends with
status `complete` in both orchestrator variants (for the current variant the
target's own byte fetch, which is not a per-candidate failure, must
succeed). -/
theorem C4_run_always_completes (env1 : EnvV1) (env2 : EnvV2)
    (target : UploadedImage) (g : List UploadedImage) (s0 : AnalysisStatus)
    (r0 : List AssessmentResult) :
    (g ≠ [] → env1.targetFetch = true →
      (startAssessment env1 (some target) g s0 r0).status.step = .complete) ∧
    (g ≠ [] →
      (startAssessmentV2 env2 (some target) g s0 r0).status.step = .complete) := by
  constructor
  · intro hg hf
    simp only [startAssessment]
    rw [if_neg (by simpa [List.length_eq_zero] using hg),
      if_neg (by simp [hf])]
  · intro hg
    simp only [startAssessmentV2]
    rw [if_neg (by simpa [List.length_eq_zero] using hg)]

/-- Witness for C4 on the example run with one reference record. -/
theorem C4_run_always_completes_witness :
    (startAssessment exEnvV1 (some exTarget) [exRef] exIdle []).status.step =
      .complete ∧
    (startAssessmentV2 exEnvV2 (some exTarget) [exRef] exIdle []).status.step =
      .complete :=
  ⟨(C4_run_always_completes exEnvV1 exEnvV2 exTarget [exRef] exIdle []).1
      (List.cons_ne_nil _ _) rfl,
    (C4_run_always_completes exEnvV1 exEnvV2 exTarget [exRef] exIdle []).2
      (List.cons_ne_nil _ _)⟩

/-- C5: in both orchestrator variants every result surfaced in the final list
has a strictly positive (in particular non-zero) total: zero-total results
are filtered out before the final sort and never appear. -/
theorem C5_zero_total_never_surfaced (env1 : EnvV1) (env2 : EnvV2)
    (t : Option UploadedImage) (g : List UploadedImage) (s0 : AnalysisStatus)
    (r : AssessmentResult) :
    (r ∈ (startAssessment env1 t g s0 []).results →
      0 < r.scores.total ∧ r.scores.total ≠ 0) ∧
    (r ∈ (startAssessmentV2 env2 t g s0 []).results →
      0 < r.scores.total ∧ r.scores.total ≠ 0) := by
  constructor
  · intro hr
    have h := (startAssessment_results_mem hr).1
    exact ⟨h, by omega⟩
  · intro hr
    have h := (startAssessmentV2_results_mem hr).1
    exact ⟨h, by omega⟩

/-- Witness for C5: the example run surfaces `exResultV2`, whose total is the
positive 50. -/
theorem C5_zero_total_never_surfaced_witness :
    0 < exResultV2.scores.total ∧ exResultV2.scores.total ≠ 0 :=
  (C5_zero_total_never_surfaced exEnvV1 exEnvV2 (some exTarget) [exRef] exIdle
      exResultV2).2
    (by rw [exV2_results]; exact List.mem_singleton_self _)

/-- C10: on every path of both `analyzeImageRisk` variants the returned
result has `isMatch` equal to "the oracle-reported total, defaulting to 0
when absent, is strictly positive" and `pHashMatch` equal to the caller's
hint; consequently every result surfaced in a final list has
`isMatch = true`. -/
theorem C10_isMatch_invariant (referenceId : String) (hint : Bool)
    (o : OracleOutcome) (env1 : EnvV1) (env2 : EnvV2)
    (t : Option UploadedImage) (g : List UploadedImage) (s0 : AnalysisStatus)
    (r : AssessmentResult) :
    ((analyzeImageRisk referenceId hint o).isMatch =
        decide (0 < outcomeTotal o) ∧
      (analyzeImageRisk referenceId hint o).pHashMatch = hint ∧
      (analyzeImageRiskV2 referenceId hint o).isMatch =
        decide (0 < outcomeTotal o) ∧
      (analyzeImageRiskV2 referenceId hint o).pHashMatch = hint) ∧
    (r ∈ (startAssessment env1 t g s0 []).results → r.isMatch = true) ∧
    (r ∈ (startAssessmentV2 env2 t g s0 []).results → r.isMatch = true) := by
  refine ⟨⟨analyzeImageRisk_isMatch _ _ _, analyzeImageRisk_pHashMatch _ _ _,
    analyzeImageRiskV2_isMatch _ _ _, analyzeImageRiskV2_pHashMatch _ _ _⟩, ?_, ?_⟩
  · intro hr
    exact (startAssessment_results_mem hr).2
  · intro hr
    exact (startAssessmentV2_results_mem hr).2

/-- Witness for C10: the example run's surfaced result has `isMatch = true`. -/
theorem C10_isMatch_invariant_witness : exResult.isMatch = true :=
  (C10_isMatch_invariant "r1" false (.parsed (exJson 50)) exEnvV1 exEnvV2
      (some exTarget) [exRef] exIdle exResult).2.1
    (by rw [exV1_results]; exact List.mem_singleton_self _)

/-- C3 (amended): started with a target image set and an empty collection,
both orchestrators return immediately without performing any state
transition: status and result list are left exactly as they were (the
`idle`/empty state a fresh target upload leaves behind); in particular the
run does not transition to `complete`. -/
theorem C3_empty_collection_amended (env1 : EnvV1) (env2 : EnvV2)
    (t : Option UploadedImage) (s0 : AnalysisStatus)
    (r0 : List AssessmentResult) :
    startAssessment env1 t [] s0 r0 = ⟨s0, r0⟩ ∧
    startAssessmentV2 env2 t [] s0 r0 = ⟨s0, r0⟩ := by
  cases t <;> exact ⟨rfl, rfl⟩

/-- C3 counterexample: with a target set, an empty collection and the `idle`
status of a fresh upload, the run stays `idle` with no results in both
variants — it does not transition to `complete` as claimed. -/
theorem C3_empty_collection_counterexample :
    (startAssessment exEnvV1 (some exTarget) [] exIdle []).status.step =
      Step.idle ∧
    (startAssessment exEnvV1 (some exTarget) [] exIdle []).status.step ≠
      Step.complete ∧
    (startAssessment exEnvV1 (some exTarget) [] exIdle []).results = [] ∧
    (startAssessmentV2 exEnvV2 (some exTarget) [] exIdle []).status.step =
      Step.idle ∧
    (startAssessmentV2 exEnvV2 (some exTarget) [] exIdle []).status.step ≠
      Step.complete := by
  refine ⟨rfl, by decide, rfl, rfl, by decide⟩

/-- C2 (bug in App.tsx): `calculateHammingDistance` signals a length mismatch
with `-1`, and the `App.tsx` flag computation, lacking the `0 ≤ d` guard of
`part_000`, accepts `-1 ≤ 8` and flags a record whose fingerprint length
differs from the target's as a fingerprint match; the `part_000` flag agrees
exactly with the claimed rule (both fingerprints truthy, lengths equal,
distance at most 8). -/
theorem C2_fingerprint_flag (th rh : Option String) :
    calculateHammingDistance "0" "00" = -1 ∧
    isPHashMatchFlag (some "0") (some "00") = true ∧
    isPHashMatchFlagV2 (some "0") (some "00") = false ∧
    isPHashMatchFlagV2 th rh = specFingerprintMatch th rh := by
  refine ⟨by decide, by decide, by decide, ?_⟩
  cases th with
  | none =>
    cases rh <;> rfl
  | some t' =>
    cases rh with
    | none => rfl
    | some r' =>
      simp only [isPHashMatchFlagV2, specFingerprintMatch]
      by_cases he : (t'.isEmpty || r'.isEmpty) = true
      · rw [if_pos he, if_pos he]
      · rw [if_neg he, if_neg he]
        rw [decide_eq_decide]
        constructor
        · rintro ⟨h0, h8⟩
          refine ⟨?_, h8⟩
          by_contra hne
          rw [calculateHammingDistance, if_pos (by simpa using hne)] at h0
          omega
        · rintro ⟨hl, h8⟩
          refine ⟨?_, h8⟩
          rw [calculateHammingDistance, if_neg (by simpa using hl)]
          exact Int.natCast_nonneg _

/-- C9 counterexample: when only the embedding call fails (the chat step
succeeded), `generateImageIndex` returns the empty embedding but keeps the
non-empty chat description, refuting the "(with an empty description)" part
of the claim. -/
theorem C9_counterexample :
    (generateImageIndex (.ok "a dog") .failure).embedding = [] ∧
    (generateImageIndex (.ok "a dog") .failure).description = "a dog" ∧
    "a dog" ≠ "" := by
  exact ⟨rfl, rfl, by decide⟩

/-- C9 (amended): `generateImageIndex` is a total function of its outcomes
(no exception can propagate into the core); on every error path the returned
embedding is empty, and the description is additionally empty when the
failure reaches `generateImageIndex`'s own handler (the chat step) — an
embedding-only failure keeps the chat description; the core treats an empty
embedding like an absent one: the candidate similarity is `0` whenever
either side's embedding is empty or absent. -/
theorem C9_fails_open_amended (chat : ChatOutcome) (emb : EmbeddingOutcome)
    (targetEmbedding : List ℝ) (targetHash : Option String)
    (ref : UploadedImage) :
    (generateImageIndex .failure emb).description = "" ∧
    (generateImageIndex .failure emb).embedding = [] ∧
    (generateImageIndex chat .failure).embedding = [] ∧
    (targetEmbedding = [] →
      (mkCandidate targetHash targetEmbedding ref).similarity = 0) ∧
    (ref.embedding = some [] →
      (mkCandidate targetHash targetEmbedding ref).similarity = 0) ∧
    (ref.embedding = none →
      (mkCandidate targetHash targetEmbedding ref).similarity = 0) := by
  refine ⟨rfl, rfl, ?_, ?_, ?_, ?_⟩
  · cases chat with
    | failure => rfl
    | ok text =>
      simp only [generateImageIndex]
      by_cases he : text.isEmpty = true
      · rw [if_pos he]
      · rw [if_neg he]
        rfl
  · intro h
    subst h
    simp only [mkCandidate]
    rcases href : ref.embedding with _ | re
    · simp [href]
    · simp only [href]
      rw [calculateCosineSimilarity, if_pos (Or.inr List.length_nil)]
  · intro h
    simp only [mkCandidate, h]
    by_cases hl : targetEmbedding.length = 0
    · rw [calculateCosineSimilarity, if_pos (Or.inr hl)]
    · rw [calculateCosineSimilarity, if_pos (Or.inl (by simpa using hl))]
  · intro h
    simp [mkCandidate, h]

/-- Witness for the amended C9: with an absent reference embedding and an
empty target embedding the similarity is `0`, and the double-failure index is
the empty one. -/
theorem C9_fails_open_amended_witness :
    (mkCandidate none [] exRef).similarity = 0 ∧
    (generateImageIndex .failure .failure).embedding = [] :=
  ⟨(C9_fails_open_amended .failure .failure [] none exRef).2.2.2.1 rfl,
    (C9_fails_open_amended .failure .failure [] none exRef).2.2.1⟩

/-! ## Final ordering of results (claim C1) -/

theorem finalLe_total : ∀ a b : AssessmentResult, finalLe a b ∨ finalLe b a :=
  fun _ _ => Int.le_total _ _

theorem finalLe_trans :
    ∀ a b c : AssessmentResult, finalLe a b → finalLe b c → finalLe a c :=
  fun _ _ _ h1 h2 => le_trans h2 h1

theorem finalLeV2_total :
    ∀ a b : AssessmentResult, finalLeV2 a b ∨ finalLeV2 b a := by
  intro a b
  unfold finalLeV2
  by_cases h : a.pHashMatch = b.pHashMatch
  · rw [if_pos h, if_pos h.symm]
    exact Int.le_total _ _
  · rw [if_neg h, if_neg (Ne.symm h)]
    cases ha : a.pHashMatch <;> cases hb : b.pHashMatch <;> simp_all

theorem finalLeV2_trans :
    ∀ a b c : AssessmentResult, finalLeV2 a b → finalLeV2 b c → finalLeV2 a c := by
  intro a b c
  unfold finalLeV2
  cases ha : a.pHashMatch <;> cases hb : b.pHashMatch <;>
    cases hc : c.pHashMatch <;> simp_all <;> omega

theorem startAssessment_results_sorted (env1 : EnvV1) (t : Option UploadedImage)
    (g : List UploadedImage) (s0 : AnalysisStatus) :
    (startAssessment env1 t g s0 []).results.Pairwise finalLe := by
  cases t with
  | none => simp [startAssessment]
  | some target =>
    simp only [startAssessment]
    by_cases hg : g.length = 0
    · rw [if_pos hg]
      simp
    · rw [if_neg hg]
      by_cases hf : env1.targetFetch = false
      · rw [if_pos hf]
        simp
      · rw [if_neg hf]
        exact jsStableSort_pairwise finalLe finalLe_total finalLe_trans _

theorem startAssessmentV2_results_sorted (env2 : EnvV2)
    (t : Option UploadedImage) (g : List UploadedImage) (s0 : AnalysisStatus) :
    (startAssessmentV2 env2 t g s0 []).results.Pairwise specFinalOrder := by
  cases t with
  | none => simp [startAssessmentV2]
  | some target =>
    simp only [startAssessmentV2]
    by_cases hg : g.length = 0
    · rw [if_pos hg]
      simp
    · rw [if_neg hg]
      exact (jsStableSort_pairwise finalLeV2 finalLeV2_total finalLeV2_trans
        _).imp fun h => h

/-- C1 (amended): the legacy (part_000) orchestrator's final list is sorted
by fingerprint-match descending then total descending (the spec's adopted
policy), but the current (App.tsx) orchestrator's final list is sorted by
total descending only — the single policy does not govern every variant.
Both final sorts permute their input and are stable on ties: results tied
under the comparator keep their accumulation order (filter-invariance over
each tie class). -/
theorem C1_final_ordering_amended (env1 : EnvV1) (env2 : EnvV2)
    (t : Option UploadedImage) (g : List UploadedImage) (s0 : AnalysisStatus)
    (l : List AssessmentResult) (a : AssessmentResult) :
    (startAssessment env1 t g s0 []).results.Pairwise finalLe ∧
    (startAssessmentV2 env2 t g s0 []).results.Pairwise specFinalOrder ∧
    List.Perm (jsStableSort finalLe l) l ∧
    List.Perm (jsStableSort finalLeV2 l) l ∧
    (jsStableSort finalLe l).filter
        (fun y => decide (finalLe a y ∧ finalLe y a)) =
      l.filter (fun y => decide (finalLe a y ∧ finalLe y a)) ∧
    (jsStableSort finalLeV2 l).filter
        (fun y => decide (finalLeV2 a y ∧ finalLeV2 y a)) =
      l.filter (fun y => decide (finalLeV2 a y ∧ finalLeV2 y a)) :=
  ⟨startAssessment_results_sorted env1 t g s0,
    startAssessmentV2_results_sorted env2 t g s0,
    jsStableSort_perm finalLe l,
    jsStableSort_perm finalLeV2 l,
    jsStableSort_filter_tied finalLe finalLe_trans a l,
    jsStableSort_filter_tied finalLeV2 finalLeV2_trans a l⟩

/-- The counterexample candidate sort: the fingerprint-matching candidate
(built from `cxRef2`) is moved in front of the non-matching one. -/
theorem cx_candidates_sorted :
    jsStableSort candLe
      [mkCandidate (some cxHashA) [] cxRef1,
        mkCandidate (some cxHashA) [] cxRef2] =
      [mkCandidate (some cxHashA) [] cxRef2,
        mkCandidate (some cxHashA) [] cxRef1] := by
  have h21 : candLe (mkCandidate (some cxHashA) [] cxRef2)
      (mkCandidate (some cxHashA) [] cxRef1) := by
    unfold candLe
    rw [show (mkCandidate (some cxHashA) [] cxRef2).isPHashMatch = true by decide,
      show (mkCandidate (some cxHashA) [] cxRef1).isPHashMatch = false by decide]
    simp
  have h12 : ¬ candLe (mkCandidate (some cxHashA) [] cxRef1)
      (mkCandidate (some cxHashA) [] cxRef2) := by
    unfold candLe
    rw [show (mkCandidate (some cxHashA) [] cxRef1).isPHashMatch = false by decide,
      show (mkCandidate (some cxHashA) [] cxRef2).isPHashMatch = true by decide]
    simp
  simp only [jsStableSort, insertStable]
  rw [if_pos ⟨h21, h12⟩]

/-- C1 counterexample: on a concrete completed run of the current (App.tsx)
orchestrator the surfaced list is `[(pHashMatch = false, total = 90),
(pHashMatch = true, total = 50)]`: a fingerprint-matching result ranks below
a non-matching one, so the final list is not ordered by the claimed
fingerprint-match-first policy. -/
theorem C1_final_ordering_counterexample :
    ((startAssessment cxEnvV1 (some cxTarget) [cxRef1, cxRef2] exIdle
        []).results.map fun r => (r.pHashMatch, r.scores.total)) =
      [(false, 90), (true, 50)] ∧
    ¬ (startAssessment cxEnvV1 (some cxTarget) [cxRef1, cxRef2] exIdle
        []).results.Pairwise specFinalOrder := by
  have hres : (startAssessment cxEnvV1 (some cxTarget) [cxRef1, cxRef2] exIdle
      []).results = [cxRes1, cxRes2] := by
    show jsStableSort finalLe (analysisLoop cxEnvV1
        ((jsStableSort candLe
          [mkCandidate (some cxHashA) [] cxRef1,
            mkCandidate (some cxHashA) [] cxRef2]).take 5)) = [cxRes1, cxRes2]
    rw [cx_candidates_sorted]
    rfl
  constructor
  · rw [hres]
    rfl
  · rw [hres]
    intro hp
    have h12 := (List.pairwise_cons.mp hp).1 cxRes2 (List.mem_singleton_self _)
    unfold specFinalOrder at h12
    rw [show cxRes1.pHashMatch = false from rfl,
      show cxRes2.pHashMatch = true from rfl] at h12
    simp at h12
